import Mathlib

/-!
Shallow embedding of the `wstest` repository: the arithmetic utility
(`mathutils`), revision 1 of the string utility (`stringutils`), and
revision 2 of the string utility (`stringutilsV2`), together with proofs
of the specification's claims about them.

Go `int` is modelled as a mathematical integer wrapped into the 64-bit
two's-complement range `[-2^63, 2^63)`; Go `string` is modelled by its
sequence of Unicode code points (Lean `String`, whose `data` field is the
code-point list, matching Go's `[]rune` conversion).
-/

namespace mathutils

/-- Number of values of a 64-bit machine integer. -/
def wordSize : Int := 2 ^ 64

/-- Smallest 64-bit two's-complement integer. -/
def intMin : Int := -(2 ^ 63)

/-- Reduction of an unbounded integer into the 64-bit two's-complement
range, modelling Go's wrap-around on overflow. -/
def wrap (x : Int) : Int := (x - intMin) % wordSize + intMin

/-- Go `func Add(a, b int) int { return a + b }` (file `mathutils/math.go`). -/
def Add (a b : Int) : Int := wrap (a + b)

/-- Go `func Multiply(a, b int) int { return a * b }` (file `mathutils/math.go`). -/
def Multiply (a b : Int) : Int := wrap (a * b)

/-- Go `func Version() string { return "v1.0.1" }` (file `mathutils/math.go`). -/
def Version : String := "v1.0.1"

/-- Modelled from the spec: the narrative off-by-one intermediate revision of
`Add` (`a + b + 1`), which is not present under `src/`; the spec's design notes
describe it as the defect fixed by the published revision. -/
def AddBuggy (a b : Int) : Int := wrap (a + b + 1)

theorem wordSize_eq : wordSize = 18446744073709551616 := by norm_num [wordSize]

theorem intMin_eq : intMin = -9223372036854775808 := by norm_num [intMin]

end mathutils

/-- Model of the Go standard formatter `fmt.Sprintf` restricted to the `%s`
verb: scans the format's code points and substitutes the arguments for the
occurrences of `%s`, in order. Both greeting revisions call the formatter
this way. -/
def substVerbs : List Char → List (List Char) → List Char
  | [], _ => []
  | '%' :: 's' :: rest, arg :: args => arg ++ substVerbs rest args
  | c :: rest, args => c :: substVerbs rest args

/-- String-level wrapper of `substVerbs`, the model of `fmt.Sprintf` with
string arguments only. -/
def Sprintf (fmt : String) (args : List String) : String :=
  String.mk (substVerbs fmt.data (args.map String.data))

namespace stringutils

/-- Go revision-1 `func HelloWorld(name string) string` of
`stringutils/strings.go`: `return fmt.Sprintf("Hello, %s!", name)`. -/
def HelloWorld (name : String) : String :=
  Sprintf "Hello, %s!" [name]

/-- The swap loop of Go revision-1 `Reverse`:
`for i, j := 0, len(runes)-1; i < j; i, j = i+1, j-1 { runes[i], runes[j] = runes[j], runes[i] }`.
The bound `j < runes.size` in the guard records that Go's indexing stays in
bounds (the loop is only entered with `j = len(runes)-1`). -/
def reverseLoop (runes : Array Char) (i j : Nat) : Array Char :=
  if h : i < j ∧ j < runes.size then
    reverseLoop (runes.swap ⟨i, Nat.lt_trans h.1 h.2⟩ ⟨j, h.2⟩) (i + 1) (j - 1)
  else runes
termination_by j - i
decreasing_by simp_wf; omega

/-- Go revision-1 `func Reverse(s string) string` of `stringutils/strings.go`:
converts to runes, runs the swap loop, converts back. -/
def Reverse (s : String) : String :=
  String.mk (reverseLoop s.data.toArray 0 (s.data.toArray.size - 1)).toList

/-- Go revision-1 `func Version() string { return "v1.0.0" }`. -/
def Version : String := "v1.0.0"

end stringutils

namespace stringutilsV2

/-- Go revision-2 `func HelloWorld(name, greeting string) string`:
`return fmt.Sprintf("%s, %s!", greeting, name)`. -/
def HelloWorld (name greeting : String) : String :=
  Sprintf "%s, %s!" [greeting, name]

/-- The swap loop of Go revision-2 `Reverse` (textually the same loop as in
revision 1). -/
def reverseLoop (runes : Array Char) (i j : Nat) : Array Char :=
  if h : i < j ∧ j < runes.size then
    reverseLoop (runes.swap ⟨i, Nat.lt_trans h.1 h.2⟩ ⟨j, h.2⟩) (i + 1) (j - 1)
  else runes
termination_by j - i
decreasing_by simp_wf; omega

/-- Go revision-2 `func Reverse(s string) string`. -/
def Reverse (s : String) : String :=
  String.mk (reverseLoop s.data.toArray 0 (s.data.toArray.size - 1)).toList

/-- Go revision-2 `func Version() string { return "v2.0.0" }`. -/
def Version : String := "v2.0.0"

end stringutilsV2

/-! Helper lemmas about the swap loop shared by the two string-utility
revisions. -/

theorem getElem?_congr_idx (a : Array Char) {m n : Nat} (h : m = n) :
    a[m]? = a[n]? := by rw [h]

/-- Characterization of the swap loop: positions between `i` and `j` are
mirrored around the midpoint, positions outside are untouched. -/
theorem getElem?_reverseLoop (a : Array Char) (i j : Nat) (hj : j < a.size) (k : Nat) :
    (stringutils.reverseLoop a i j)[k]? =
      if i ≤ k ∧ k ≤ j then a[i + j - k]? else a[k]? := by
  rw [stringutils.reverseLoop]
  split
  case isTrue h =>
    rw [getElem?_reverseLoop _ (i + 1) (j - 1)
      (by simpa using Nat.lt_of_le_of_lt (Nat.sub_le j 1) hj) k]
    simp only [Array.getElem?_swap, Fin.val_mk]
    split_ifs <;>
      first
        | rfl
        | omega
        | (rw [Array.getElem?_eq_getElem (by omega)]; exact congrArg some (by congr 1; omega))
        | (rw [getElem?_congr_idx a (show i + 1 + (j - 1) - k = i + j - k by omega)])
  case isFalse h =>
    split
    case isTrue h2 => exact getElem?_congr_idx a (by omega)
    case isFalse h2 => rfl
termination_by j - i
decreasing_by simp_wf; omega

/-- The code points of revision-1 `Reverse s` are the code points of `s`
reversed. -/
theorem data_Reverse (s : String) :
    (stringutils.Reverse s).data = s.data.reverse := by
  rcases Nat.eq_zero_or_pos s.data.toArray.size with h0 | hpos
  · have hnil : s.data = [] :=
      List.length_eq_zero.mp (by rw [Array.size_toArray] at h0; exact h0)
    rw [stringutils.Reverse, stringutils.reverseLoop]
    simp [hnil]
  · apply List.ext_getElem?
    intro n
    show (stringutils.reverseLoop s.data.toArray 0 (s.data.toArray.size - 1)).toList[n]? = _
    rw [← Array.getElem?_eq_getElem?_toList,
      getElem?_reverseLoop _ _ _ (by omega) n]
    have hlen : s.data.toArray.size = s.data.length := by simp
    by_cases hn : n < s.data.length
    · rw [if_pos (by omega), List.getElem?_reverse hn, List.getElem?_toArray]
      exact by rw [show 0 + (s.data.toArray.size - 1) - n = s.data.length - 1 - n from by omega]
    · rw [if_neg (by omega), List.getElem?_toArray,
        List.getElem?_eq_none (by omega), List.getElem?_eq_none (by simpa using hn)]

/-- The revision-2 swap loop is the same function as the revision-1 swap
loop. -/
theorem reverseLoop_v2_eq_v1 (a : Array Char) (i j : Nat) :
    stringutilsV2.reverseLoop a i j = stringutils.reverseLoop a i j := by
  rw [stringutilsV2.reverseLoop, stringutils.reverseLoop]
  by_cases h : i < j ∧ j < a.size
  · rw [dif_pos h, dif_pos h]
    exact reverseLoop_v2_eq_v1 _ (i + 1) (j - 1)
  · rw [dif_neg h, dif_neg h]
termination_by j - i
decreasing_by simp_wf; omega

/-! Claim theorems. -/

/-- C1: `Reverse` is an involution: for every string `s`,
`Reverse (Reverse s) = s`; in particular `Reverse` of the empty string
returns the empty string. -/
theorem Reverse_involution (s : String) :
    stringutils.Reverse (stringutils.Reverse s) = s ∧
      stringutils.Reverse "" = "" := by
  constructor
  · apply String.ext
    rw [data_Reverse, data_Reverse, List.reverse_reverse]
  · apply String.ext
    rw [data_Reverse]
    rfl

/-- C2: `Reverse s` is the string whose sequence of Unicode code points is
exactly the code-point sequence of `s` in reverse order, and `Reverse`
preserves length counted in code points. -/
theorem Reverse_codePoints (s : String) :
    (stringutils.Reverse s).data = s.data.reverse ∧
      (stringutils.Reverse s).length = s.length := by
  refine ⟨data_Reverse s, ?_⟩
  show (stringutils.Reverse s).data.length = s.data.length
  rw [data_Reverse, List.length_reverse]

/-- C3: the revision-1 greeting returns the fixed-template greeting embedding
the name verbatim: `HelloWorld name = "Hello, " ++ name ++ "!"`, and in
particular `HelloWorld "Alice" = "Hello, Alice!"`. -/
theorem HelloWorld_v1_template (name : String) :
    stringutils.HelloWorld name = "Hello, " ++ name ++ "!" ∧
      stringutils.HelloWorld "Alice" = "Hello, Alice!" := by
  refine ⟨?_, rfl⟩
  obtain ⟨l⟩ := name
  rfl

/-- C4: the revision-2 greeting combines the caller-supplied salutation and
name as `"<salutation>, <name>!"`, and in particular
`HelloWorld "Developer" "Welcome" = "Welcome, Developer!"`. -/
theorem HelloWorld_v2_template (name greeting : String) :
    stringutilsV2.HelloWorld name greeting = greeting ++ ", " ++ name ++ "!" ∧
      stringutilsV2.HelloWorld "Developer" "Welcome" = "Welcome, Developer!" := by
  refine ⟨?_, rfl⟩
  obtain ⟨l⟩ := name
  obtain ⟨g⟩ := greeting
  apply String.ext
  show g ++ (',' :: ' ' :: (l ++ ['!'])) = ((g ++ [',', ' ']) ++ l) ++ ['!']
  simp [List.append_assoc]

/-- C5: addition is commutative and has 0 as a right identity on the 64-bit
integer range. -/
theorem Add_comm_and_right_id (a b : Int)
    (ha : mathutils.intMin ≤ a ∧ a < mathutils.intMin + mathutils.wordSize) :
    mathutils.Add a b = mathutils.Add b a ∧ mathutils.Add a 0 = a := by
  have h1 := mathutils.wordSize_eq
  have h2 := mathutils.intMin_eq
  constructor
  · unfold mathutils.Add
    rw [Int.add_comm]
  · unfold mathutils.Add mathutils.wrap
    rw [h1, h2] at ha ⊢
    omega

/-- Witness for C5 at `a = 3`, `b = 5`. -/
theorem Add_comm_and_right_id_witness :
    mathutils.Add 3 5 = mathutils.Add 5 3 ∧ mathutils.Add 3 0 = 3 :=
  Add_comm_and_right_id 3 5 (by decide)

/-- C6: multiplication is commutative and has 1 as a right identity on the
64-bit integer range. -/
theorem Multiply_comm_and_right_id (a b : Int)
    (ha : mathutils.intMin ≤ a ∧ a < mathutils.intMin + mathutils.wordSize) :
    mathutils.Multiply a b = mathutils.Multiply b a ∧ mathutils.Multiply a 1 = a := by
  have h1 := mathutils.wordSize_eq
  have h2 := mathutils.intMin_eq
  constructor
  · unfold mathutils.Multiply
    rw [Int.mul_comm]
  · unfold mathutils.Multiply mathutils.wrap
    rw [Int.mul_one]
    rw [h1, h2] at ha ⊢
    omega

/-- Witness for C6 at `a = 4`, `b = 7`. -/
theorem Multiply_comm_and_right_id_witness :
    mathutils.Multiply 4 7 = mathutils.Multiply 7 4 ∧ mathutils.Multiply 4 1 = 4 :=
  Multiply_comm_and_right_id 4 7 (by decide)

/-- C7: `Add` computes the exact arithmetic sum modulo the 64-bit word, is
the exact arithmetic sum whenever that sum is representable, and never
returns the narrative off-by-one value `a + b + 1`. -/
theorem Add_exact_sum_not_off_by_one (a b : Int) :
    mathutils.Add a b % mathutils.wordSize = (a + b) % mathutils.wordSize ∧
      (mathutils.intMin ≤ a + b ∧ a + b < mathutils.intMin + mathutils.wordSize →
        mathutils.Add a b = a + b) ∧
      mathutils.Add a b ≠ mathutils.AddBuggy a b := by
  have h1 := mathutils.wordSize_eq
  have h2 := mathutils.intMin_eq
  unfold mathutils.Add mathutils.AddBuggy mathutils.wrap
  rw [h1, h2]
  exact ⟨by omega, fun h => by omega, by omega⟩

/-- Witness for C7 at `a = 2`, `b = 3`. -/
theorem Add_exact_sum_not_off_by_one_witness :
    mathutils.Add 2 3 % mathutils.wordSize = (2 + 3 : Int) % mathutils.wordSize ∧
      mathutils.Add 2 3 = 2 + 3 ∧
      mathutils.Add 2 3 ≠ mathutils.AddBuggy 2 3 := by
  obtain ⟨w1, w2, w3⟩ := Add_exact_sum_not_off_by_one 2 3
  exact ⟨w1, w2 (by decide), w3⟩

/-- C8: each `Version` is a pure constant equal to its fixed literal, and the
two string-utility revision markers are distinct from each other. -/
theorem Version_constants_distinct :
    mathutils.Version = "v1.0.1" ∧ stringutils.Version = "v1.0.0" ∧
      stringutilsV2.Version = "v2.0.0" ∧
      stringutils.Version ≠ stringutilsV2.Version := by
  refine ⟨rfl, rfl, rfl, ?_⟩
  decide

/-- C9: the revision-1 and revision-2 implementations of `Reverse` are
extensionally equal. -/
theorem Reverse_revisions_agree (s : String) :
    stringutils.Reverse s = stringutilsV2.Reverse s := by
  rw [stringutilsV2.Reverse, stringutils.Reverse, reverseLoop_v2_eq_v1]

/-- C10: the revision-2 greeting with salutation `"Hello"` specializes to the
revision-1 greeting. -/
theorem HelloWorldV2_hello_specializes (name : String) :
    stringutilsV2.HelloWorld name "Hello" = stringutils.HelloWorld name := by
  obtain ⟨l⟩ := name
  rfl
